import Mathlib

/-!
Verification of the ioBroker open-meteo-weather state-tree synchronization
engine. Definitions are shallow embeddings of the functions in
`src/main.ts` (the live TypeScript source); a few definitions marked as
such follow the specification text, for comparison.
-/

/-! ## Object Cache and upsert path (createCustomState / extendOrCreateState)

Both `createCustomState` and `extendOrCreateState` in `src/main.ts`
(lines 630-689) share one structure: if the id is not in the
`createdObjects` set, issue one metadata-definition call
(`setObjectNotExistsAsync`) and add the id to the set; then always issue
the value write (`setState` with ack). `upsert` below embeds that shared
structure; `syncRun` runs it over the list of (id, value) emissions a
deterministic snapshot produces. -/

/-- A call to the external store: a metadata definition or a value write. -/
inductive Op (V : Type) where
  | define (id : String)
  | write (id : String) (v : V)

/-- Process-wide synchronizer state: the `createdObjects` Object Cache and
the persisted value store. -/
structure SyncSt (V : Type) where
  cache : List String
  store : String → Option V

/-- Overwrite one id in the value store. -/
def writeStore {V : Type} (st : String → Option V) (id : String) (v : V) :
    String → Option V :=
  fun j => if j = id then some v else st j

/-- One data-point upsert, embedding the shared body of `createCustomState`
and `extendOrCreateState`: define metadata only when the id is not cached,
then always write the value. Returns the new state and the store calls
issued. -/
def upsert {V : Type} (s : SyncSt V) (id : String) (v : V) :
    SyncSt V × List (Op V) :=
  if id ∈ s.cache then
    ({ s with store := writeStore s.store id v }, [Op.write id v])
  else
    ({ cache := id :: s.cache, store := writeStore s.store id v },
     [Op.define id, Op.write id v])

/-- One sync pass over the (id, value) emissions derived from a snapshot. -/
def syncRun {V : Type} (s : SyncSt V) : List (String × V) → SyncSt V × List (Op V)
  | [] => (s, [])
  | e :: rest =>
    let r := upsert s e.1 e.2
    let rr := syncRun r.1 rest
    (rr.1, r.2 ++ rr.2)

/-- Recognize a metadata-definition call for a given id. -/
def isDefineOf {V : Type} (id : String) : Op V → Bool
  | Op.define j => j = id
  | Op.write _ _ => false

/-- Recognize a value-write call for a given id. -/
def isWriteOf {V : Type} (id : String) : Op V → Bool
  | Op.write j _ => j = id
  | Op.define _ => false

/-- Number of metadata-definition calls for an id in a call trace. -/
def countDefines {V : Type} (ops : List (Op V)) (id : String) : Nat :=
  ops.countP (isDefineOf id)

/-- Number of value-write calls for an id in a call trace. -/
def countWrites {V : Type} (ops : List (Op V)) (id : String) : Nat :=
  ops.countP (isWriteOf id)

/-- Replay a list of value writes onto a store (the store effect of a run). -/
def applyEmits {V : Type} (st : String → Option V) :
    List (String × V) → (String → Option V)
  | [] => st
  | e :: rest => applyEmits (writeStore st e.1 e.2) rest

/-- Value of the last emission for an id, if any. -/
def lastVal {V : Type} : List (String × V) → String → Option V
  | [], _ => none
  | e :: rest, id =>
    match lastVal rest id with
    | some w => some w
    | none => if e.1 = id then some e.2 else none

lemma upsert_cache_mono {V : Type} (s : SyncSt V) (i : String) (v : V)
    (x : String) (hx : x ∈ s.cache) : x ∈ (upsert s i v).1.cache := by
  unfold upsert
  split
  · exact hx
  · exact List.mem_cons_of_mem _ hx

lemma upsert_self_cache {V : Type} (s : SyncSt V) (i : String) (v : V) :
    i ∈ (upsert s i v).1.cache := by
  unfold upsert
  split
  · assumption
  · exact List.mem_cons_self _ _

lemma upsert_store {V : Type} (s : SyncSt V) (i : String) (v : V) :
    (upsert s i v).1.store = writeStore s.store i v := by
  unfold upsert
  split <;> rfl

lemma syncRun_cache_mono {V : Type} (es : List (String × V)) :
    ∀ (s : SyncSt V) (x : String), x ∈ s.cache → x ∈ (syncRun s es).1.cache := by
  induction es with
  | nil => intro s x hx; exact hx
  | cons e rest ih =>
    intro s x hx
    exact ih _ _ (upsert_cache_mono s e.1 e.2 x hx)

lemma syncRun_mem_cache {V : Type} (es : List (String × V)) :
    ∀ (s : SyncSt V) (p : String × V), p ∈ es → p.1 ∈ (syncRun s es).1.cache := by
  induction es with
  | nil => intro s p hp; cases hp
  | cons e rest ih =>
    intro s p hp
    rcases List.mem_cons.mp hp with h | h
    · subst h
      exact syncRun_cache_mono rest _ _ (upsert_self_cache s p.1 p.2)
    · exact ih _ _ h

lemma countDefines_append {V : Type} (a b : List (Op V)) (id : String) :
    countDefines (a ++ b) id = countDefines a id + countDefines b id :=
  List.countP_append _ _ _

lemma countWrites_append {V : Type} (a b : List (Op V)) (id : String) :
    countWrites (a ++ b) id = countWrites a id + countWrites b id :=
  List.countP_append _ _ _

lemma syncRun_defines_zero_of_cached {V : Type} (es : List (String × V)) :
    ∀ (s : SyncSt V) (id : String), id ∈ s.cache →
      countDefines (syncRun s es).2 id = 0 := by
  induction es with
  | nil => intro s id _; rfl
  | cons e rest ih =>
    intro s id hid
    show countDefines ((upsert s e.1 e.2).2 ++ (syncRun (upsert s e.1 e.2).1 rest).2) id = 0
    rw [countDefines_append]
    have h2 : countDefines (syncRun (upsert s e.1 e.2).1 rest).2 id = 0 :=
      ih _ _ (upsert_cache_mono s e.1 e.2 id hid)
    have h1 : countDefines (upsert s e.1 e.2).2 id = 0 := by
      unfold upsert
      split
      · rfl
      · rename_i hne
        have : e.1 ≠ id := by
          intro h; exact hne (h ▸ hid)
        simp [countDefines, isDefineOf, List.countP_cons, this]
    omega

lemma syncRun_defines_zero_of_not_emitted {V : Type} (es : List (String × V)) :
    ∀ (s : SyncSt V) (id : String), id ∉ es.map Prod.fst →
      countDefines (syncRun s es).2 id = 0 := by
  induction es with
  | nil => intro s id _; rfl
  | cons e rest ih =>
    intro s id hid
    have hne : e.1 ≠ id := by
      intro h; exact hid (by simp [h])
    have hrest : id ∉ rest.map Prod.fst := by
      intro h; exact hid (by simp [h])
    show countDefines ((upsert s e.1 e.2).2 ++ (syncRun (upsert s e.1 e.2).1 rest).2) id = 0
    rw [countDefines_append, ih _ _ hrest]
    have h1 : countDefines (upsert s e.1 e.2).2 id = 0 := by
      unfold upsert
      split
      · rfl
      · simp [countDefines, isDefineOf, List.countP_cons, hne]
    omega

lemma syncRun_defines_le_one {V : Type} (es : List (String × V)) :
    ∀ (s : SyncSt V) (id : String), countDefines (syncRun s es).2 id ≤ 1 := by
  induction es with
  | nil => intro s id; exact Nat.zero_le 1
  | cons e rest ih =>
    intro s id
    show countDefines ((upsert s e.1 e.2).2 ++ (syncRun (upsert s e.1 e.2).1 rest).2) id ≤ 1
    rw [countDefines_append]
    by_cases hmem : e.1 ∈ s.cache
    · have h1 : countDefines (upsert s e.1 e.2).2 id = 0 := by
        unfold upsert
        rw [if_pos hmem]
        rfl
      rw [h1]
      simpa using ih _ id
    · by_cases heq : e.1 = id
      · have h1 : countDefines (upsert s e.1 e.2).2 id = 1 := by
          unfold upsert
          rw [if_neg hmem]
          simp [countDefines, isDefineOf, List.countP_cons, heq]
        have h2 : countDefines (syncRun (upsert s e.1 e.2).1 rest).2 id = 0 :=
          syncRun_defines_zero_of_cached rest _ _ (heq ▸ upsert_self_cache s e.1 e.2)
        omega
      · have h1 : countDefines (upsert s e.1 e.2).2 id = 0 := by
          unfold upsert
          rw [if_neg hmem]
          simp [countDefines, isDefineOf, List.countP_cons, heq]
        rw [h1]
        simpa using ih _ id

lemma syncRun_writes {V : Type} (es : List (String × V)) :
    ∀ (s : SyncSt V) (id : String),
      countWrites (syncRun s es).2 id = (es.map Prod.fst).count id := by
  induction es with
  | nil => intro s id; rfl
  | cons e rest ih =>
    intro s id
    show countWrites ((upsert s e.1 e.2).2 ++ (syncRun (upsert s e.1 e.2).1 rest).2) id = _
    rw [countWrites_append, ih]
    have h1 : countWrites (upsert s e.1 e.2).2 id = if e.1 = id then 1 else 0 := by
      unfold upsert
      split <;> simp [countWrites, isWriteOf, List.countP_cons]
    rw [h1]
    simp [List.count_cons]
    by_cases h : e.1 = id <;> simp [h]
    omega

lemma syncRun_store {V : Type} (es : List (String × V)) :
    ∀ (s : SyncSt V), (syncRun s es).1.store = applyEmits s.store es := by
  induction es with
  | nil => intro s; rfl
  | cons e rest ih =>
    intro s
    show (syncRun (upsert s e.1 e.2).1 rest).1.store = _
    rw [ih, upsert_store]
    rfl

lemma applyEmits_lookup {V : Type} (es : List (String × V)) :
    ∀ (st : String → Option V) (id : String),
      applyEmits st es id =
        match lastVal es id with
        | some w => some w
        | none => st id := by
  induction es with
  | nil => intro st id; rfl
  | cons e rest ih =>
    intro st id
    show applyEmits (writeStore st e.1 e.2) rest id = _
    rw [ih]
    cases h : lastVal rest id with
    | some w => simp [lastVal, h]
    | none =>
      by_cases heq : e.1 = id
      · simp [lastVal, h, heq, writeStore]
      · simp [lastVal, h, heq, writeStore, Ne.symm heq]

lemma applyEmits_idem {V : Type} (es : List (String × V)) (st : String → Option V) :
    applyEmits (applyEmits st es) es = applyEmits st es := by
  funext id
  rw [applyEmits_lookup, applyEmits_lookup]
  cases h : lastVal es id with
  | some w => simp
  | none => simp

/-- Claim C1: running the sync of one snapshot twice in the same process
yields identical final values for every data point; the first run issues at
most one metadata-definition call per id, the second run issues zero
definition calls (the Object Cache holds every id after the first run), and
the value write of every emitted id is performed on both runs regardless of
cache state. -/
theorem sync_idempotent (V : Type) (s : SyncSt V) (emits : List (String × V)) :
    (syncRun (syncRun s emits).1 emits).1.store = (syncRun s emits).1.store
    ∧ (∀ id, countDefines (syncRun s emits).2 id ≤ 1)
    ∧ (∀ id, countDefines (syncRun (syncRun s emits).1 emits).2 id = 0)
    ∧ (∀ p ∈ emits, 1 ≤ countWrites (syncRun s emits).2 p.1
        ∧ 1 ≤ countWrites (syncRun (syncRun s emits).1 emits).2 p.1) := by
  refine ⟨?_, ?_, ?_, ?_⟩
  · rw [syncRun_store, syncRun_store]
    exact applyEmits_idem emits s.store
  · intro id
    exact syncRun_defines_le_one emits s id
  · intro id
    by_cases hmem : id ∈ emits.map Prod.fst
    · rcases List.mem_map.mp hmem with ⟨p, hp, hp1⟩
      exact syncRun_defines_zero_of_cached emits _ _
        (hp1 ▸ syncRun_mem_cache emits s p hp)
    · exact syncRun_defines_zero_of_not_emitted emits _ _ hmem
  · intro p hp
    have hcount : 1 ≤ (emits.map Prod.fst).count p.1 :=
      List.count_pos_iff.mpr (List.mem_map.mpr ⟨p, hp, rfl⟩)
    constructor
    · rw [syncRun_writes]; exact hcount
    · rw [syncRun_writes]; exact hcount

/-- Claim C1 witness: the idempotence theorem applied to a concrete
two-point snapshot from the empty cache. -/
theorem sync_idempotent_witness :
    countDefines
      (syncRun (syncRun (⟨[], fun _ => none⟩ : SyncSt Nat)
        [("a", 1), ("b", 2)]).1 [("a", 1), ("b", 2)]).2 "a" = 0
    ∧ 1 ≤ countWrites
        (syncRun (⟨[], fun _ => none⟩ : SyncSt Nat) [("a", 1), ("b", 2)]).2 "a" :=
  ⟨(sync_idempotent Nat ⟨[], fun _ => none⟩ [("a", 1), ("b", 2)]).2.2.1 "a",
   ((sync_idempotent Nat ⟨[], fun _ => none⟩ [("a", 1), ("b", 2)]).2.2.2
     ("a", 1) (by simp)).1⟩

/-! ## Sync Cycle Controller (updateData, src/main.ts lines 236-304)

`updateData` guards on `isUpdating`, warns and returns on an empty
location list, then iterates the configured locations inside a single
try/catch: for each location it awaits the fetch collaborator and the
processing functions. There is no per-location catch: the first exception
jumps to the cycle-level catch, after which no further location is
processed and the `info.lastUpdate` timestamp write is skipped. The
`finally` always clears `isUpdating`. A location is modelled by the
outcome the loop body observes: either a list of (id, value) emissions to
synchronize, or a thrown error. -/

/-- Outcome of fetching and processing one location, as observed by the
`updateData` loop body: `ok` carries the emissions its processing issues,
`fail` is a thrown exception (from the fetch collaborator or from a
processing function). -/
inductive Fetch (V : Type) where
  | ok (emits : List (String × V))
  | fail

/-- Controller state: the `isUpdating` overlap guard plus the synchronizer
state (Object Cache and persisted store). -/
structure AdapterState (V : Type) where
  isUpdating : Bool
  sync : SyncSt V

/-- Observable report of one `updateData` invocation: the store calls
issued, the number of locations fully processed, whether the
`info.lastUpdate` timestamp was written, whether the cycle-level catch
logged an error, and whether the invocation was skipped by the overlap
guard. -/
structure Report (V : Type) where
  ops : List (Op V)
  completed : Nat
  timestampWritten : Bool
  errorLogged : Bool
  skippedOverlap : Bool

/-- The per-location loop of `updateData`: process locations sequentially;
the first thrown exception aborts the loop (remaining locations are not
visited). Returns the synchronizer state, the accumulated store calls, the
number of fully processed locations, and whether the loop finished without
an exception. -/
def runLocs {V : Type} (s : SyncSt V) : List (Fetch V) → SyncSt V × List (Op V) × Nat × Bool
  | [] => (s, [], 0, true)
  | Fetch.ok em :: rest =>
    let r := syncRun s em
    let rr := runLocs r.1 rest
    (rr.1, r.2 ++ rr.2.1, rr.2.2.1 + 1, rr.2.2.2)
  | Fetch.fail :: _ => (s, [], 0, false)

/-- Embedding of `updateData`: overlap guard, empty-configuration warning,
per-location loop, timestamp write on success only, guard always released
afterwards. `ts` is the formatted timestamp value. -/
def updateData {V : Type} (ts : V) (st : AdapterState V) (locs : List (Fetch V)) :
    AdapterState V × Report V :=
  if st.isUpdating then
    (st, ⟨[], 0, false, false, true⟩)
  else if locs.isEmpty then
    ({ st with isUpdating := false }, ⟨[], 0, false, false, false⟩)
  else
    let r := runLocs st.sync locs
    if r.2.2.2 then
      (⟨false, { r.1 with store := writeStore r.1.store "info.lastUpdate" ts }⟩,
       ⟨r.2.1 ++ [Op.write "info.lastUpdate" ts], r.2.2.1, true, false, false⟩)
    else
      (⟨false, r.1⟩, ⟨r.2.1, r.2.2.1, false, true, false⟩)

/-- Length of the error-free prefix of the location list: exactly the
locations `updateData` fully processes. -/
def okPrefixLen {V : Type} : List (Fetch V) → Nat
  | Fetch.ok _ :: rest => okPrefixLen rest + 1
  | _ => 0

/-- Whether every location outcome in the list is exception-free. -/
def allOk {V : Type} : List (Fetch V) → Bool
  | [] => true
  | Fetch.ok _ :: rest => allOk rest
  | Fetch.fail :: _ => false

lemma runLocs_completed {V : Type} (locs : List (Fetch V)) :
    ∀ s : SyncSt V, (runLocs s locs).2.2.1 = okPrefixLen locs := by
  induction locs with
  | nil => intro s; rfl
  | cons l rest ih =>
    intro s
    cases l with
    | ok em => simp [runLocs, okPrefixLen, ih]
    | fail => rfl

lemma runLocs_ok {V : Type} (locs : List (Fetch V)) :
    ∀ s : SyncSt V, (runLocs s locs).2.2.2 = allOk locs := by
  induction locs with
  | nil => intro s; rfl
  | cons l rest ih =>
    cases l with
    | ok em => intro s; simp [runLocs, allOk, ih]
    | fail => intro s; rfl

/-- Claim C4 counterexample: two configured locations where the first
throws during fetch/processing. The code processes zero further locations
(the second location gets no write), writes no timestamp, and logs the
failure at cycle level — contradicting the claim that subsequent locations
are still processed and the timestamp still written. -/
theorem loc_failure_counterexample :
    (updateData 0 ⟨false, ⟨[], fun _ => none⟩⟩
        [Fetch.fail, Fetch.ok [("x", (1 : Nat))]]).2.completed = 0
    ∧ (updateData 0 ⟨false, ⟨[], fun _ => none⟩⟩
        [Fetch.fail, Fetch.ok [("x", (1 : Nat))]]).2.timestampWritten = false
    ∧ countWrites (updateData 0 ⟨false, ⟨[], fun _ => none⟩⟩
        [Fetch.fail, Fetch.ok [("x", (1 : Nat))]]).2.ops "x" = 0
    ∧ (updateData 0 ⟨false, ⟨[], fun _ => none⟩⟩
        [Fetch.fail, Fetch.ok [("x", (1 : Nat))]]).2.errorLogged = true :=
  ⟨rfl, rfl, rfl, rfl⟩

/-- Claim C4 as amended: a per-location failure is caught and logged only
at cycle level; exactly the error-free prefix of the location list is
processed (locations after the first failure are skipped for that cycle),
the timestamp is written only when the cycle is non-empty and no location
threw, and the overlap guard is always released. -/
theorem updateData_failure_semantics (V : Type) (ts : V) (s : SyncSt V)
    (locs : List (Fetch V)) :
    (updateData ts ⟨false, s⟩ locs).1.isUpdating = false
    ∧ (updateData ts ⟨false, s⟩ locs).2.completed = okPrefixLen locs
    ∧ (updateData ts ⟨false, s⟩ locs).2.timestampWritten
        = (!locs.isEmpty && allOk locs)
    ∧ (updateData ts ⟨false, s⟩ locs).2.errorLogged
        = (!locs.isEmpty && !allOk locs)
    ∧ (updateData ts ⟨false, s⟩ locs).2.skippedOverlap = false := by
  unfold updateData
  cases hl : locs.isEmpty
  · cases hok : allOk locs
    · simp [hl, hok, runLocs_ok, runLocs_completed]
    · simp [hl, hok, runLocs_ok, runLocs_completed]
  · have he : locs = [] := List.isEmpty_iff.mp hl
    subst he
    simp [okPrefixLen, allOk]

/-- Claim C9: invoking `updateData` while the `isUpdating` flag is set
performs zero store calls, leaves the controller state (Object Cache and
persisted data points) unchanged, and returns without error. -/
theorem overlap_guard (V : Type) (ts : V) (st : AdapterState V)
    (locs : List (Fetch V)) (h : st.isUpdating = true) :
    updateData ts st locs = (st, ⟨[], 0, false, false, true⟩) := by
  unfold updateData
  rw [h]
  rfl

/-- Claim C9 witness: the overlap guard theorem at a concrete running
state and a nonempty location list. -/
theorem overlap_guard_witness :
    updateData (0 : Nat) ⟨true, ⟨[], fun _ => none⟩⟩ [Fetch.fail]
      = (⟨true, ⟨[], fun _ => none⟩⟩, ⟨[], 0, false, false, true⟩) :=
  overlap_guard Nat 0 ⟨true, ⟨[], fun _ => none⟩⟩ [Fetch.fail] rfl

/-! ## Pollen severity (processAirQualityData, src/main.ts lines 613-624)

The live source classifies a pollen concentration with the fixed ladder
`v > 2 → high, v > 1 → moderate, v > 0 → low, else none`. The spec and the
claim instead describe the `[1,10,50]` / birch `[10,100,500]` scheme that
only appears in the legacy compiled file `src/unnamed/part_000`;
`pollenLevelSpec` renders that scheme from the words of the claim for
comparison. -/

/-- Severity bucket for the emitted pollen text. -/
inductive PollenLevel where
  | nothing
  | low
  | moderate
  | high
deriving DecidableEq

/-- Pollen classification as implemented in `src/main.ts`
(`valPollen > 2 → high, > 1 → moderate, > 0 → low, else none`). -/
def pollenLevel (v : ℚ) : PollenLevel :=
  if v > 2 then PollenLevel.high
  else if v > 1 then PollenLevel.moderate
  else if v > 0 then PollenLevel.low
  else PollenLevel.nothing

/-- Modelled from the words of claim C3 (and the legacy
`src/unnamed/part_000`): thresholds `[1,10,50]`, birch `[10,100,500]`,
classification by `>=` against the ladder. -/
def pollenLevelSpec (isBirch : Bool) (v : ℚ) : PollenLevel :=
  let t : ℚ × ℚ × ℚ := if isBirch then (10, 100, 500) else (1, 10, 50)
  if v ≥ t.2.2 then PollenLevel.high
  else if v ≥ t.2.1 then PollenLevel.moderate
  else if v ≥ t.1 then PollenLevel.low
  else PollenLevel.nothing

/-- Claim C3 counterexample: at concentration 9 the claim (thresholds
`[1,10,50]`) predicts low, but the code emits high, because `src/main.ts`
classifies with the `>2 / >1 / >0` ladder. -/
theorem pollen_counterexample :
    pollenLevel 9 = PollenLevel.high
    ∧ pollenLevelSpec false 9 = PollenLevel.low
    ∧ PollenLevel.high ≠ PollenLevel.low := by
  refine ⟨?_, ?_, by decide⟩
  · unfold pollenLevel
    norm_num
  · unfold pollenLevelSpec
    norm_num

/-- Claim C3 as amended: the emitted severity is determined by the single
fixed ladder of `src/main.ts` — `v > 2 → high`, `1 < v ≤ 2 → moderate`,
`0 < v ≤ 1 → low`, `v ≤ 0 → none` — with no birch override; in particular
0 → none, 1 → low, 9 → high, 10 → high and 50 → high. -/
theorem pollen_classification :
    (∀ v : ℚ, (pollenLevel v = PollenLevel.high ↔ 2 < v)
      ∧ (pollenLevel v = PollenLevel.moderate ↔ 1 < v ∧ v ≤ 2)
      ∧ (pollenLevel v = PollenLevel.low ↔ 0 < v ∧ v ≤ 1)
      ∧ (pollenLevel v = PollenLevel.nothing ↔ v ≤ 0))
    ∧ pollenLevel 0 = PollenLevel.nothing
    ∧ pollenLevel 1 = PollenLevel.low
    ∧ pollenLevel 9 = PollenLevel.high
    ∧ pollenLevel 10 = PollenLevel.high
    ∧ pollenLevel 50 = PollenLevel.high := by
  refine ⟨?_, ?_, ?_, ?_, ?_, ?_⟩
  · intro v
    unfold pollenLevel
    split_ifs with h1 h2 h3 <;>
      refine ⟨?_, ?_, ?_, ?_⟩ <;>
        constructor <;>
          intro h <;>
            try simp_all
    all_goals linarith
  all_goals unfold pollenLevel
  all_goals norm_num

/-! ## Compass direction (getWindDirection / getWindDirectionIcon,
src/main.ts lines 62-72)

Both functions compute `index = Math.round(deg / 45) % 8`; the first
indexes the translated rose labels (fallback table
`N, NO, O, SO, S, SW, W, NW`, the German 8-way rose), the second indexes
the fixed `WIND_DIRECTION_FILES` icon table. JavaScript `Math.round` is
floor of `x + 1/2`, matching Mathlib `round`. -/

/-- Fallback rose labels of `getWindDirection` (German abbreviations; `NO`
is the NE label, `O` the E label). -/
def defaultDirs : List String := ["N", "NO", "O", "SO", "S", "SW", "W", "NW"]

/-- The fixed 8-entry icon table `WIND_DIRECTION_FILES`. -/
def windDirectionFiles : List String :=
  ["n.png", "no.png", "o.png", "so.png", "s.png", "sw.png", "w.png", "nw.png"]

/-- The shared rose index `Math.round(deg / 45) % 8`. -/
def windIndex (deg : ℚ) : ℤ := round (deg / 45) % 8

/-- Embedding of `getWindDirection` (with the fallback label table). -/
def getWindDirection (deg : ℚ) : String :=
  defaultDirs.getD (windIndex deg).toNat ""

/-- Embedding of `getWindDirectionIcon`. -/
def getWindDirectionIcon (deg : ℚ) : String :=
  "/adapter/open-meteo-weather/icons/wind_direction_icons/"
    ++ windDirectionFiles.getD (windIndex deg).toNat ""

/-- Claim C7 counterexample: at 44 degrees the code computes
`round(44/45) = 1`, selecting the NE entry (label `NO`, icon `no.png`),
while the claim asserts 44 maps to N (index 0). -/
theorem compass_counterexample :
    windIndex 44 = 1
    ∧ getWindDirection 44 = "NO"
    ∧ getWindDirection 0 = "N"
    ∧ ("NO" : String) ≠ "N" := by
  have h44 : windIndex 44 = 1 := by
    unfold windIndex
    norm_num [round_eq]
  refine ⟨h44, ?_, ?_, by decide⟩
  · unfold getWindDirection
    rw [h44]
    rfl
  · unfold getWindDirection windIndex
    norm_num [round_eq]
    rfl

/-- Claim C7 as amended: for every nonnegative degree value the rose index
is `round(deg/45) mod 8`, and that one index selects both the label and the
entry of the fixed 8-entry icon table; in particular 0 → N (index 0),
44 → index 1 (NE), 46 → index 1 (NE) and 360 → N (index 0). -/
theorem compass_classification (deg : ℚ) (hd : 0 ≤ deg) :
    (∃ i : Fin 8, windIndex deg = (i : ℤ)
      ∧ getWindDirection deg = defaultDirs.getD (i : Nat) ""
      ∧ getWindDirectionIcon deg
          = "/adapter/open-meteo-weather/icons/wind_direction_icons/"
            ++ windDirectionFiles.getD (i : Nat) "")
    ∧ windIndex 0 = 0 ∧ windIndex 44 = 1 ∧ windIndex 46 = 1 ∧ windIndex 360 = 0
    ∧ getWindDirection 0 = "N" ∧ getWindDirection 360 = "N" := by
  have hround : 0 ≤ round (deg / 45) := by
    rw [round_eq]
    refine Int.floor_nonneg.mpr ?_
    have : (0 : ℚ) ≤ deg / 45 := by positivity
    linarith
  have hmod0 : 0 ≤ windIndex deg := by
    unfold windIndex
    exact Int.emod_nonneg _ (by norm_num)
  have hmod8 : windIndex deg < 8 := by
    unfold windIndex
    exact Int.emod_lt_of_pos _ (by norm_num)
  have hnat : (windIndex deg).toNat < 8 := by omega
  have hcast : ((windIndex deg).toNat : ℤ) = windIndex deg := Int.toNat_of_nonneg hmod0
  refine ⟨⟨⟨(windIndex deg).toNat, hnat⟩, by simpa using hcast.symm, rfl, rfl⟩,
    ?_, ?_, ?_, ?_, ?_, ?_⟩
  · unfold windIndex; norm_num [round_eq]
  · unfold windIndex; norm_num [round_eq]
  · unfold windIndex; norm_num [round_eq]
  · unfold windIndex; norm_num [round_eq]
  · unfold getWindDirection windIndex
    norm_num [round_eq]
    rfl
  · unfold getWindDirection windIndex
    norm_num [round_eq]
    rfl

/-- Claim C7 witness: the amended compass theorem applied at 90 degrees. -/
theorem compass_classification_witness :
    (∃ i : Fin 8, windIndex 90 = (i : ℤ)
      ∧ getWindDirection 90 = defaultDirs.getD (i : Nat) ""
      ∧ getWindDirectionIcon 90
          = "/adapter/open-meteo-weather/icons/wind_direction_icons/"
            ++ windDirectionFiles.getD (i : Nat) "")
    ∧ windIndex 0 = 0 ∧ windIndex 44 = 1 ∧ windIndex 46 = 1 ∧ windIndex 360 = 0
    ∧ getWindDirection 0 = "N" ∧ getWindDirection 360 = "N" :=
  compass_classification 90 (by decide)

/-! ## Gust severity bands (getWindGustIcon, src/main.ts lines 81-100)

Six bands with thresholds 39/50/62/75/89 km/h, each divided by the factor
1.60934 when the unit system is imperial; band 0 is returned below the
first threshold, band 5 at or above the last. The band index selects the
icon file. -/

/-- Unit factor of `getWindGustIcon`: 1.60934 when imperial, else 1. -/
def gustFactor (isImperial : Bool) : ℚ :=
  if isImperial then 1.60934 else 1

/-- The band index chosen by the cascading comparisons of
`getWindGustIcon` (0 = calmest, 5 = most severe). -/
def gustBand (isImperial : Bool) (g : ℚ) : Nat :=
  if g < 39 / gustFactor isImperial then 0
  else if g < 50 / gustFactor isImperial then 1
  else if g < 62 / gustFactor isImperial then 2
  else if g < 75 / gustFactor isImperial then 3
  else if g < 89 / gustFactor isImperial then 4
  else 5

/-- Icon files returned by the six branches of `getWindGustIcon`. -/
def gustFiles : List String := ["z.png", "0.png", "1.png", "2.png", "3.png", "4.png"]

/-- Embedding of `getWindGustIcon` as band selection over the icon table. -/
def getWindGustIcon (isImperial : Bool) (g : ℚ) : String :=
  "/adapter/open-meteo-weather/icons/wind_icons/"
    ++ gustFiles.getD (gustBand isImperial g) ""

/-- Claim C8: the gust band is monotone in the speed, a speed below the
first (unit-adjusted) threshold lands in the calmest band, a speed at or
above the last threshold lands in the most severe band, the metric
examples 38 → band 0, 39 → band 1, 49.9 → band 1, 50 → band 2, 90 → band 5
hold, and the band index selects the icon-table entry. -/
theorem gust_banding :
    (∀ (imp : Bool) (g h : ℚ), g ≤ h → gustBand imp g ≤ gustBand imp h)
    ∧ (∀ (imp : Bool) (g : ℚ), g < 39 / gustFactor imp → gustBand imp g = 0)
    ∧ (∀ (imp : Bool) (g : ℚ), 89 / gustFactor imp ≤ g → gustBand imp g = 5)
    ∧ gustBand false 38 = 0 ∧ gustBand false 39 = 1
    ∧ gustBand false (499/10) = 1 ∧ gustBand false 50 = 2 ∧ gustBand false 90 = 5
    ∧ (∀ (imp : Bool) (g : ℚ), getWindGustIcon imp g
        = "/adapter/open-meteo-weather/icons/wind_icons/"
          ++ gustFiles.getD (gustBand imp g) "") := by
  refine ⟨?_, ?_, ?_, ?_, ?_, ?_, ?_, ?_, fun _ _ => rfl⟩
  · intro imp g h hgh
    unfold gustBand
    split_ifs <;> first | omega | linarith
  · intro imp g hg
    unfold gustBand
    rw [if_pos hg]
  · intro imp g hg
    have hf : 0 < gustFactor imp := by
      unfold gustFactor
      split <;> norm_num
    have h39 : (39 : ℚ) / gustFactor imp ≤ 89 / gustFactor imp :=
      (div_le_div_iff_of_pos_right hf).mpr (by norm_num)
    have h50 : (50 : ℚ) / gustFactor imp ≤ 89 / gustFactor imp :=
      (div_le_div_iff_of_pos_right hf).mpr (by norm_num)
    have h62 : (62 : ℚ) / gustFactor imp ≤ 89 / gustFactor imp :=
      (div_le_div_iff_of_pos_right hf).mpr (by norm_num)
    have h75 : (75 : ℚ) / gustFactor imp ≤ 89 / gustFactor imp :=
      (div_le_div_iff_of_pos_right hf).mpr (by norm_num)
    unfold gustBand
    split_ifs <;> first | rfl | linarith
  all_goals unfold gustBand gustFactor
  all_goals norm_num

/-- Claim C8 witness: monotonicity, the calm bound, and the severe bound of
the gust-band theorem applied at concrete metric speeds. -/
theorem gust_banding_witness :
    gustBand false 38 ≤ gustBand false 90
    ∧ gustBand false 5 = 0
    ∧ gustBand false 100 = 5 :=
  ⟨gust_banding.1 false 38 90 (by decide),
   gust_banding.2.1 false 5 (by norm_num [gustFactor]),
   gust_banding.2.2.1 false 100 (by norm_num [gustFactor])⟩

/-! ## Dew point (calculateDewPoint, src/main.ts lines 103-114)

Magnus approximation with `a = 17.625`, `b = 243.04`: convert the
temperature to Celsius when the unit system is imperial, compute
`alpha = ln(rh/100) + a*t/(b+t)` and `dp = b*alpha/(a-alpha)`, convert
back to Fahrenheit when imperial, and round to one decimal
(`parseFloat(x.toFixed(1))`, modelled as `round(10*x)/10`). The
computation is modelled over the real numbers. -/

/-- Embedding of `calculateDewPoint`. -/
noncomputable def calculateDewPoint (isImperial : Bool) (temp humidity : ℝ) : ℝ :=
  let t := if isImperial then (temp - 32) * 5 / 9 else temp
  let rh := humidity / 100
  let a : ℝ := 17.625
  let b : ℝ := 243.04
  let alpha := Real.log rh + a * t / (b + t)
  let dp := b * alpha / (a - alpha)
  let dp2 := if isImperial then dp * 9 / 5 + 32 else dp
  ((round (10 * dp2) : ℤ) : ℝ) / 10

lemma magnus_alpha_bounds :
    (0.6469 : ℝ) ≤ Real.log ((50 : ℝ) / 100) + 17.625 * 20 / (243.04 + 20)
    ∧ Real.log ((50 : ℝ) / 100) + 17.625 * 20 / (243.04 + 20) ≤ 0.647 := by
  have h50 : ((50 : ℝ) / 100) = 2⁻¹ := by norm_num
  rw [h50, Real.log_inv]
  have hgt := Real.log_two_gt_d9
  have hlt := Real.log_two_lt_d9
  constructor <;> [nlinarith; nlinarith]

lemma magnus_dp_bounds :
    (9.25 : ℝ) ≤ 243.04 * (Real.log ((50 : ℝ) / 100) + 17.625 * 20 / (243.04 + 20))
        / (17.625 - (Real.log ((50 : ℝ) / 100) + 17.625 * 20 / (243.04 + 20)))
    ∧ 243.04 * (Real.log ((50 : ℝ) / 100) + 17.625 * 20 / (243.04 + 20))
        / (17.625 - (Real.log ((50 : ℝ) / 100) + 17.625 * 20 / (243.04 + 20)))
      ≤ 9.30 := by
  obtain ⟨hlo, hhi⟩ := magnus_alpha_bounds
  set alpha := Real.log ((50 : ℝ) / 100) + 17.625 * 20 / (243.04 + 20) with halpha
  have hden : (0 : ℝ) < 17.625 - alpha := by linarith
  constructor
  · rw [le_div_iff₀ hden]
    nlinarith
  · rw [div_le_iff₀ hden]
    nlinarith

/-- Claim C6: `calculateDewPoint(20, 50)` in metric mode equals 9.3 within
0.1 (the Magnus approximation gives about 9.26, rounded to one decimal),
and the imperial result at the equivalent inputs (68 degrees F, 50
percent) converts, computes and converts back consistently with the metric
result within one-decimal rounding. -/
theorem dew_point_values :
    |calculateDewPoint false 20 50 - 9.3| ≤ 0.1
    ∧ |calculateDewPoint true 68 50 - (calculateDewPoint false 20 50 * 9 / 5 + 32)|
        ≤ 0.1 := by
  obtain ⟨hlo, hhi⟩ := magnus_dp_bounds
  set alpha := Real.log ((50 : ℝ) / 100) + 17.625 * 20 / (243.04 + 20) with halpha
  set dp := 243.04 * alpha / (17.625 - alpha) with hdp
  have hmetric : calculateDewPoint false 20 50 = ((round (10 * dp) : ℤ) : ℝ) / 10 := by
    unfold calculateDewPoint
    norm_num [halpha, hdp]
  have ht68 : ((68 : ℝ) - 32) * 5 / 9 = 20 := by norm_num
  have himp : calculateDewPoint true 68 50
      = ((round (10 * (dp * 9 / 5 + 32)) : ℤ) : ℝ) / 10 := by
    unfold calculateDewPoint
    rw [if_pos rfl, ht68]
    norm_num [halpha, hdp]
  have hr1 : round (10 * dp) = 93 := by
    rw [round_eq]
    have : (93 : ℤ) ≤ 10 * dp + 1 / 2 ∧ 10 * dp + 1 / 2 < 93 + 1 := by
      constructor <;> [push_cast; push_cast] <;> linarith
    rw [Int.floor_eq_iff]
    exact_mod_cast this
  have hr2 : round (10 * (dp * 9 / 5 + 32)) = 487 := by
    rw [round_eq]
    have : (487 : ℤ) ≤ 10 * (dp * 9 / 5 + 32) + 1 / 2
        ∧ 10 * (dp * 9 / 5 + 32) + 1 / 2 < 487 + 1 := by
      constructor <;> [push_cast; push_cast] <;> linarith
    rw [Int.floor_eq_iff]
    exact_mod_cast this
  rw [hmetric, himp, hr1, hr2]
  constructor
  · norm_num
  · rw [abs_le]
    constructor <;> norm_num

/-! ## Current-section synchronization (processWeatherData, src/main.ts
lines 310-372)

The `data.current` loop writes the raw data point for every present field
unconditionally (`extendOrCreateState` is called with whatever value the
snapshot holds, its declared type inferred from the runtime value); only
the companion derived points are guarded: the dew point needs both
`temperature_2m` and `relative_humidity_2m` to be numbers, the wind
direction and wind gust derived points need a numeric value, while the
`weather_code` derived points are emitted for any value. No warning is
logged on a malformed field. Snapshot values are modelled by `JVal`
(a JavaScript runtime value), the section by a key-value list, and the
emissions by structured events (`raw` field writes and `derived` points
named by their override key). -/

/-- A JavaScript runtime value as seen by the snapshot processing code. -/
inductive JVal where
  | num (q : ℚ)
  | str (s : String)
  | bool (b : Bool)
  | null
deriving DecidableEq

/-- The `typeof val === number` check. -/
def isNum : JVal → Bool
  | JVal.num _ => true
  | _ => false

/-- An emission of the current-section loop: a raw field write, a derived
point write (named by its override key), or a logged warning. -/
inductive Ev where
  | raw (key : String)
  | derived (key : String)
  | warnLog
deriving DecidableEq

/-- First lookup of a key in a snapshot section (JavaScript property
access). -/
def jsFind {A : Type} (l : List (String × A)) (k : String) : Option A :=
  (l.find? (fun p => p.1 == k)).map (fun p => p.2)

/-- The dew-point guard of `processWeatherData`: both `temperature_2m` and
`relative_humidity_2m` must be present numbers. -/
def dewEligible (cur : List (String × JVal)) : Bool :=
  match jsFind cur "temperature_2m", jsFind cur "relative_humidity_2m" with
  | some (JVal.num _), some (JVal.num _) => true
  | _, _ => false

/-- Emissions of one iteration of the `for key in data.current` loop: the
unconditional raw write, then the guarded derived points keyed off the
field. -/
def currentFieldEvs (kv : String × JVal) : List Ev :=
  [Ev.raw kv.1]
  ++ (if kv.1 == "weather_code" then
        [Ev.derived "weather_text", Ev.derived "icon_url"] else [])
  ++ (if kv.1 == "wind_direction_10m" && isNum kv.2 then
        [Ev.derived "wind_direction_text", Ev.derived "wind_direction_icon"]
      else [])
  ++ (if kv.1 == "wind_gusts_10m" && isNum kv.2 then
        [Ev.derived "wind_gust_icon"] else [])

/-- Emissions of the `data.current` branch of `processWeatherData`: the
guarded dew point first, then the per-field loop. -/
def processCurrent (cur : List (String × JVal)) : List Ev :=
  (if dewEligible cur then [Ev.derived "dew_point_2m"] else [])
  ++ cur.flatMap currentFieldEvs

/-- Number of warnings logged in an emission trace. -/
def warnCount (evs : List Ev) : Nat :=
  evs.countP (fun e => e == Ev.warnLog)

/-- Claim C5 counterexample: a current section whose only field
`wind_direction_10m` holds a string (wrong type). The code still performs
the raw data-point write for that field and logs no warning — the claim
asserts no write occurs and a warning is logged. Only the derived points
are skipped. -/
theorem malformed_field_counterexample :
    Ev.raw "wind_direction_10m"
        ∈ processCurrent [("wind_direction_10m", JVal.str "bad")]
    ∧ warnCount (processCurrent [("wind_direction_10m", JVal.str "bad")]) = 0
    ∧ Ev.derived "wind_direction_text"
        ∉ processCurrent [("wind_direction_10m", JVal.str "bad")] := by
  decide

lemma warnCount_append (a b : List Ev) :
    warnCount (a ++ b) = warnCount a + warnCount b :=
  List.countP_append _ _ _

lemma currentFieldEvs_no_warn (kv : String × JVal) :
    warnCount (currentFieldEvs kv) = 0 := by
  unfold currentFieldEvs
  rw [warnCount_append, warnCount_append, warnCount_append]
  split_ifs <;> rfl

lemma flatMap_no_warn (cur : List (String × JVal)) :
    warnCount (cur.flatMap currentFieldEvs) = 0 := by
  induction cur with
  | nil => rfl
  | cons kv rest ih =>
    rw [List.flatMap_cons, warnCount_append, currentFieldEvs_no_warn, ih]

lemma processCurrent_no_warn (cur : List (String × JVal)) :
    warnCount (processCurrent cur) = 0 := by
  unfold processCurrent
  rw [warnCount_append, flatMap_no_warn]
  split_ifs <;> rfl

lemma derived_dir_mem (kv : String × JVal) :
    Ev.derived "wind_direction_text" ∈ currentFieldEvs kv
      ↔ kv.1 = "wind_direction_10m" ∧ isNum kv.2 = true := by
  unfold currentFieldEvs
  split_ifs with h1 h2 h3 <;> simp_all

lemma derived_gust_mem (kv : String × JVal) :
    Ev.derived "wind_gust_icon" ∈ currentFieldEvs kv
      ↔ kv.1 = "wind_gusts_10m" ∧ isNum kv.2 = true := by
  unfold currentFieldEvs
  split_ifs with h1 h2 h3 <;> simp_all

lemma derived_dew_not_mem (kv : String × JVal) :
    Ev.derived "dew_point_2m" ∉ currentFieldEvs kv := by
  unfold currentFieldEvs
  split_ifs with h1 h2 h3 <;> simp_all

/-- Claim C5 as amended: a malformed (wrong-type) field still has its raw
data point written — the write is unconditional for every present field,
so the rest of the section is also still processed — no warning is logged,
and only the companion derived points of the wind-direction, wind-gust and
dew-point calculators are skipped (they require numeric inputs). -/
theorem malformed_field_semantics (cur : List (String × JVal)) :
    (∀ p ∈ cur, Ev.raw p.1 ∈ processCurrent cur)
    ∧ warnCount (processCurrent cur) = 0
    ∧ (Ev.derived "wind_direction_text" ∈ processCurrent cur
        ↔ ∃ v, ("wind_direction_10m", v) ∈ cur ∧ isNum v = true)
    ∧ (Ev.derived "wind_gust_icon" ∈ processCurrent cur
        ↔ ∃ v, ("wind_gusts_10m", v) ∈ cur ∧ isNum v = true)
    ∧ (Ev.derived "dew_point_2m" ∈ processCurrent cur
        ↔ dewEligible cur = true) := by
  refine ⟨?_, processCurrent_no_warn cur, ?_, ?_, ?_⟩
  · intro p hp
    unfold processCurrent
    rw [List.mem_append]
    right
    rw [List.mem_flatMap]
    exact ⟨p, hp, by unfold currentFieldEvs; simp⟩
  · unfold processCurrent
    rw [List.mem_append, List.mem_flatMap]
    constructor
    · rintro (h | ⟨kv, hkv, hm⟩)
      · split_ifs at h <;> simp_all
      · rcases kv with ⟨k, v⟩
        rw [derived_dir_mem] at hm
        obtain ⟨hk, hv⟩ := hm
        subst hk
        exact ⟨v, hkv, hv⟩
    · rintro ⟨v, hv, hnum⟩
      right
      exact ⟨("wind_direction_10m", v), hv, (derived_dir_mem _).mpr ⟨rfl, hnum⟩⟩
  · unfold processCurrent
    rw [List.mem_append, List.mem_flatMap]
    constructor
    · rintro (h | ⟨kv, hkv, hm⟩)
      · split_ifs at h <;> simp_all
      · rcases kv with ⟨k, v⟩
        rw [derived_gust_mem] at hm
        obtain ⟨hk, hv⟩ := hm
        subst hk
        exact ⟨v, hkv, hv⟩
    · rintro ⟨v, hv, hnum⟩
      right
      exact ⟨("wind_gusts_10m", v), hv, (derived_gust_mem _).mpr ⟨rfl, hnum⟩⟩
  · unfold processCurrent
    rw [List.mem_append, List.mem_flatMap]
    constructor
    · rintro (h | ⟨kv, hkv, hm⟩)
      · by_cases hd : dewEligible cur
        · exact hd
        · rw [if_neg hd] at h
          cases h
      · exact absurd hm (derived_dew_not_mem kv)
    · intro h
      left
      rw [if_pos h]
      exact List.mem_singleton_self _

/-- Claim C5 witness: the amended theorem applied to a concrete section
with one boolean-valued field. -/
theorem malformed_field_semantics_witness :
    Ev.raw "a" ∈ processCurrent [("a", JVal.bool true)] :=
  (malformed_field_semantics [("a", JVal.bool true)]).1
    ("a", JVal.bool true) (by simp)

/-! ## Hourly forecast truncation (processForecastHoursData, src/main.ts
lines 513-593)

The hourly processor reads `hoursPer_h_Limit = parseInt(config.forecastHours)
|| 24` and, guarded by `data.hourly && data.hourly.time`, loops `i` over
the whole `time` array but only emits data points when `i <
hoursPer_h_Limit`; every emitted id lives under `...next_hours.hour<i>`.
The JavaScript `parseInt(x) || d` idiom (NaN and 0 are falsy) is modelled
by `jsOrNat` over an optional parse result. Emissions are modelled as
(hour index, id suffix) pairs; the suffixes per key mirror the loop body
(the `time` key additionally writes a `date` point first, and the derived
points follow their guards). -/

/-- The `parseInt(x) || d` idiom: `none` models an unparseable value
(`NaN`), and a parsed 0 is falsy, so both fall back to the default. -/
def jsOrNat (o : Option Nat) (d : Nat) : Nat :=
  match o with
  | none => d
  | some 0 => d
  | some n => n

/-- Id suffixes written for one key of one hour entry, mirroring the loop
body of `processForecastHoursData`. -/
def hourKeyEvs (k : String) (v : JVal) : List String :=
  (if k == "time" then ["date"] else [])
  ++ [k]
  ++ (if k == "weather_code" then ["weather_text", "icon_url"] else [])
  ++ (if k == "wind_direction_10m" && isNum v then
        ["wind_direction_text", "wind_direction_icon"] else [])
  ++ (if k == "wind_gusts_10m" && isNum v then ["wind_gust_icon"] else [])

/-- Embedding of `processForecastHoursData`: emissions as (hour index,
suffix) pairs; an id `...hour<i>.<suffix>` is written only when the entry
index is below the configured hour limit. -/
def processForecastHoursData (cfgHours : Option Nat)
    (hourly : List (String × List JVal)) : List (Nat × String) :=
  match jsFind hourly "time" with
  | none => []
  | some times =>
    let limit := jsOrNat cfgHours 24
    (List.range times.length).flatMap (fun i =>
      if i < limit then
        hourly.flatMap (fun kv =>
          (hourKeyEvs kv.1 (kv.2.getD i JVal.null)).map (fun sfx => (i, sfx)))
      else [])

/-- Claim C10: every data point the hourly processor writes carries an
hour index strictly below the configured `forecastHours` limit, even when
the snapshot holds more hourly entries than the limit, and the limit
defaults to 24 when the configured value does not parse. -/
theorem hourly_truncation (cfgHours : Option Nat)
    (hourly : List (String × List JVal)) :
    (∀ e ∈ processForecastHoursData cfgHours hourly,
      e.1 < jsOrNat cfgHours 24)
    ∧ jsOrNat none 24 = 24 := by
  refine ⟨?_, rfl⟩
  intro e he
  unfold processForecastHoursData at he
  cases htimes : jsFind hourly "time" with
  | none => rw [htimes] at he; cases he
  | some times =>
    rw [htimes] at he
    simp only [List.mem_flatMap, List.mem_range] at he
    obtain ⟨i, _, hi⟩ := he
    by_cases hlt : i < jsOrNat cfgHours 24
    · rw [if_pos hlt] at hi
      simp only [List.mem_flatMap, List.mem_map] at hi
      obtain ⟨kv, _, sfx, _, hsfx⟩ := hi
      rw [← hsfx]
      exact hlt
    · rw [if_neg hlt] at hi
      cases hi

/-- Claim C10 witness: the truncation theorem applied to a concrete hourly
snapshot with three entries and a configured limit of 2. -/
theorem hourly_truncation_witness :
    (0, "date") ∈ processForecastHoursData (some 2)
        [("time", [JVal.str "a", JVal.str "b", JVal.str "c"])]
    ∧ 0 < jsOrNat (some 2) 24 :=
  ⟨by decide,
   (hourly_truncation (some 2)
      [("time", [JVal.str "a", JVal.str "b", JVal.str "c"])]).1
     (0, "date") (by decide)⟩

/-! ## Reconciliation pass (cleanupDeletedLocations, src/main.ts lines
161-233)

The cleanup enumerates all persisted object ids, splits each on the dots,
takes the third segment (`parts[2]`, the city folder under the
`<adapter>.<instance>.` namespace) and applies the rules in order: unknown
folder, air subtree with air quality disabled, hourly subtree with hourly
disabled, day index at or above `forecastDays` on non-hourly paths
(`/\.day(\d+)/` with a first-match scan), and hour index at or above
`forecastHours` when hourly is enabled. Ids are modelled as character
lists; `beginsWith`/`containsSeq` model `String.prototype.includes`,
`findNumAfter` models the first-match regex with its mandatory digit, and
`jsOrNat` models `parseInt(x) || d`. -/

/-- Character list of a string literal. -/
def cs (s : String) : List Char := s.data

/-- Split a character list on the dots, like `objId.split(".")`. -/
def splitDots : List Char → List (List Char)
  | [] => [[]]
  | c :: rest =>
    let r := splitDots rest
    if c == '.' then [] :: r
    else (c :: r.headD []) :: r.tail

/-- Whether the first list starts the second one. -/
def beginsWith : List Char → List Char → Bool
  | [], _ => true
  | _ :: _, [] => false
  | a :: as, b :: bs => a == b && beginsWith as bs

/-- Whether the pattern occurs contiguously in the list
(`String.prototype.includes`). -/
def containsSeq (pat : List Char) : List Char → Bool
  | [] => beginsWith pat []
  | c :: rest => beginsWith pat (c :: rest) || containsSeq pat rest

/-- The maximal run of leading decimal digits. -/
def leadingDigits : List Char → List Char
  | [] => []
  | c :: rest => if c.isDigit then c :: leadingDigits rest else []

/-- Decimal value of a digit run. -/
def digitsToNat (l : List Char) : Nat :=
  l.foldl (fun n c => n * 10 + (c.toNat - 48)) 0

/-- First-match scan of the pattern followed by at least one digit,
returning the value of the digit run: the model of
`objId.match(/<pat>(\d+)/)` with `parseInt` on the captured group. -/
def findNumAfter (pat : List Char) : List Char → Option Nat
  | [] => none
  | c :: rest =>
    if beginsWith pat (c :: rest) then
      let ds := leadingDigits ((c :: rest).drop pat.length)
      if ds.isEmpty then findNumAfter pat rest
      else some (digitsToNat ds)
    else findNumAfter pat rest

/-- The slug sanitization `loc.name.replace(/[^a-zA-Z0-9]/g, "_")`. -/
def sanitize (name : List Char) : List Char :=
  name.map (fun c => if c.isAlphanum then c else '_')

/-- The configuration surface read by `cleanupDeletedLocations`. Numeric
fields are optional parse results (`none` models `NaN`). -/
structure CleanupConfig where
  locations : List (List Char)
  forecastDays : Option Nat
  forecastHoursEnabled : Bool
  airQualityEnabled : Bool
  forecastHours : Option Nat

/-- The per-id decision of `cleanupDeletedLocations`: the five deletion
rules, applied in order with the fall-through of the source. -/
def shouldDelete (cfg : CleanupConfig) (objId : List Char) : Bool :=
  let parts := splitDots objId
  if parts.length ≤ 2 then false
  else
    let folderName := parts.getD 2 []
    let validFolders := cfg.locations.map sanitize
    if !(validFolders.contains folderName) then true
    else if !cfg.airQualityEnabled
        && containsSeq (folderName ++ cs ".air") objId then true
    else if !cfg.forecastHoursEnabled
        && containsSeq (folderName ++ cs ".weather.forecast.hourly") objId then
      true
    else if containsSeq (folderName ++ cs ".weather.forecast.day") objId
        && !containsSeq (cs ".hourly.") objId
        && (match findNumAfter (cs ".day") objId with
            | some n => jsOrNat cfg.forecastDays 1 ≤ n
            | none => false) then true
    else if cfg.forecastHoursEnabled
        && containsSeq (cs ".hourly.next_hours.hour") objId
        && (match findNumAfter (cs ".hour") objId with
            | some n => jsOrNat cfg.forecastHours 24 ≤ n
            | none => false) then true
    else false

/-- The reconciliation pass over the enumerated ids: the ids it deletes. -/
def cleanupDeletedLocations (cfg : CleanupConfig) (ids : List (List Char)) :
    List (List Char) :=
  ids.filter (shouldDelete cfg)

/-- Claim C2: with configured locations A and B and persisted subtrees
under A, B and C, the reconciliation pass deletes exactly the C subtree;
and for a valid location with persisted day0 to day5 and forecastDays 3 it
deletes exactly day3, day4 and day5, while an hourly path (which the
day-index rule excludes) is kept. -/
theorem reconcile_examples :
    cleanupDeletedLocations
        ⟨[cs "A", cs "B"], some 7, true, true, some 24⟩
        [cs "open-meteo-weather.0.A.weather.current.temperature_2m",
         cs "open-meteo-weather.0.A.weather.forecast.day0.temperature_2m_max",
         cs "open-meteo-weather.0.B.weather.current.temperature_2m",
         cs "open-meteo-weather.0.B.air.current.pm10",
         cs "open-meteo-weather.0.C.weather.current.temperature_2m",
         cs "open-meteo-weather.0.C.air.current.pm10"]
      = [cs "open-meteo-weather.0.C.weather.current.temperature_2m",
         cs "open-meteo-weather.0.C.air.current.pm10"]
    ∧ cleanupDeletedLocations
        ⟨[cs "A"], some 3, true, true, some 24⟩
        [cs "open-meteo-weather.0.A.weather.forecast.day0.time",
         cs "open-meteo-weather.0.A.weather.forecast.day1.time",
         cs "open-meteo-weather.0.A.weather.forecast.day2.time",
         cs "open-meteo-weather.0.A.weather.forecast.day3.time",
         cs "open-meteo-weather.0.A.weather.forecast.day4.time",
         cs "open-meteo-weather.0.A.weather.forecast.day5.time",
         cs "open-meteo-weather.0.A.weather.forecast.hourly.next_hours.hour0.time"]
      = [cs "open-meteo-weather.0.A.weather.forecast.day3.time",
         cs "open-meteo-weather.0.A.weather.forecast.day4.time",
         cs "open-meteo-weather.0.A.weather.forecast.day5.time"] := by
  constructor <;> decide
